import Mathlib

/-!
Shallow embedding of the growable-array types of the repository:
DynamicArray (include/algorithmCollection/data structures/dynamicArray.h)
and Darray (include/algorithmCollection/darray.h), both instantiated at
element type Int with the default SimpleAllocator.

Modelling conventions:
- A state records the list of live constructed elements (slot i of the
  buffer holds logical element i, so m_size equals the list length in
  every modelled operation), the m_capacity field, and the owned buffer.
- The buffer is modelled as Option Nat: none is a null pointer, some n is
  an allocated block of n element slots. SimpleAllocator.allocate returns
  the null pointer for a request of 0 and a fresh block otherwise;
  std::make_unique of an array is non-null even for 0 elements.
- size_t arithmetic is embedded as Nat: reaching values near 2 to the 64
  would require allocations beyond addressable memory, so 64-bit wraparound
  is unobservable. The explicit narrowing cast to 32-bit unsigned inside
  Darray.push_back and Darray.insert is embedded with an explicit
  mod 2 to the 32, since capacities of 2 to the 31 are expressible there.
- Operations that throw are embedded as Except String; allocation itself
  never fails in the model (out-of-memory is out of scope of the claims).
-/

/-- SimpleAllocator.allocate for n element slots: returns the null pointer
(none) when n = 0, otherwise a block of n slots (simpleAllocator.h:12). -/
def allocate (n : Nat) : Option Nat :=
  if n = 0 then none else some n

/-- Observable state of a DynamicArray of Int: live elements in order, the
m_capacity field, and the owned buffer (none = null pointer). -/
structure DynamicArray where
  elems : List Int
  capacity : Nat
  buffer : Option Nat
  deriving DecidableEq

/-- Number of live elements, the m_size field. -/
def DynamicArray.size (a : DynamicArray) : Nat :=
  a.elems.length

/-- Default constructor: size 0, capacity 0, null buffer (dynamicArray.h:41). -/
def DynamicArray.mkEmpty : DynamicArray :=
  { elems := [], capacity := 0, buffer := none }

/-- Span / initializer-list constructor: size = capacity = length of the
source sequence, buffer allocated for exactly that many slots
(dynamicArray.h:59 and 70). -/
def DynamicArray.ofList (values : List Int) : DynamicArray :=
  { elems := values, capacity := values.length, buffer := allocate values.length }

/-- DynamicArray.push_back (dynamicArray.h:571): when m_size equals
m_capacity, reallocate to new capacity (m_capacity == 0 ? 1 : m_capacity * 2)
and copy the elements over; then construct the value in the last slot and
increment m_size. -/
def DynamicArray.push_back (a : DynamicArray) (value : Int) : DynamicArray :=
  if a.size = a.capacity then
    let new_capacity := if a.capacity = 0 then 1 else a.capacity * 2
    { elems := a.elems ++ [value], capacity := new_capacity,
      buffer := allocate new_capacity }
  else
    { a with elems := a.elems ++ [value] }

/-- DynamicArray.pop_back (dynamicArray.h:652): throws on an empty array;
otherwise destroys the last element, decrements m_size, allocates a fresh
buffer of m_size slots and copies the remaining elements into it. The
m_capacity field is left unchanged. -/
def DynamicArray.pop_back (a : DynamicArray) : Except String DynamicArray :=
  if a.size = 0 then
    .error ("Array is empty")
  else
    .ok { elems := a.elems.dropLast, capacity := a.capacity,
          buffer := allocate a.elems.dropLast.length }

/-- DynamicArray.emplace (dynamicArray.h:442), the single-element
insert: index_offset is the distance of the iterator from cbegin. Throws
when index_offset exceeds m_size. When m_size equals m_capacity the
m_capacity field is first doubled (floor 1); a buffer of the resulting
m_capacity slots is then always allocated, filled with the spliced
sequence, and finally the body executes m_capacity *= 2 unconditionally
(line 477), so the stored capacity ends up twice the allocated buffer. -/
def DynamicArray.emplace (a : DynamicArray) (index_offset : Nat) (x : Int) :
    Except String DynamicArray :=
  if index_offset > a.size then
    .error ("Invalid index")
  else
    let grown := if a.size = a.capacity
      then (if a.capacity = 0 then 1 else a.capacity * 2)
      else a.capacity
    .ok { elems := a.elems.take index_offset ++ x :: a.elems.drop index_offset,
          capacity := grown * 2,
          buffer := allocate grown }

/-- DynamicArray.insert of a single value forwards to emplace
(dynamicArray.h:349). -/
def DynamicArray.insert (a : DynamicArray) (index_offset : Nat) (value : Int) :
    Except String DynamicArray :=
  a.emplace index_offset value

/-- DynamicArray.insert of count copies of a value (dynamicArray.h:357):
throws when the iterator is outside [begin, end]; when m_size + count
exceeds m_capacity it reallocates to (m_capacity == 0 ? 1 : m_capacity * 2)
regardless of count; otherwise the buffer and capacity are untouched. In
both branches m_size increases by count. -/
def DynamicArray.insert_count (a : DynamicArray) (index_offset count : Nat)
    (value : Int) : Except String DynamicArray :=
  if index_offset > a.size then
    .error ("Invalid index")
  else if a.size + count > a.capacity then
    let new_capacity := if a.capacity = 0 then 1 else a.capacity * 2
    .ok { elems := a.elems.take index_offset ++ List.replicate count value
            ++ a.elems.drop index_offset,
          capacity := new_capacity, buffer := allocate new_capacity }
  else
    .ok { a with elems := a.elems.take index_offset ++ List.replicate count value
            ++ a.elems.drop index_offset }

/-- DynamicArray.shrink_to_fit (dynamicArray.h:321): when m_capacity exceeds
m_size, reallocate to exactly m_size slots and copy the elements over. -/
def DynamicArray.shrink_to_fit (a : DynamicArray) : DynamicArray :=
  if a.capacity > a.size then
    { elems := a.elems, capacity := a.size, buffer := allocate a.size }
  else
    a

/-- DynamicArray.erase at a single position (dynamicArray.h:498): throws
unless the iterator is inside [begin, end); destroys the element, shifts the
tail left, decrements m_size, and calls shrink_to_fit when the new m_size is
below m_capacity / 2. -/
def DynamicArray.erase (a : DynamicArray) (index_offset : Nat) :
    Except String DynamicArray :=
  if index_offset ≥ a.size then
    .error ("Invalid index")
  else
    let a1 : DynamicArray :=
      { a with elems := a.elems.take index_offset ++ a.elems.drop (index_offset + 1) }
    .ok (if a1.size < a.capacity / 2 then a1.shrink_to_fit else a1)

/-- DynamicArray.reserve (dynamicArray.h:300): when new_capacity exceeds
m_capacity, allocate a fresh buffer of exactly new_capacity slots (distinct
from the live old block, so the inner pointer-inequality branch is taken),
copy the elements over and set m_capacity to new_capacity; otherwise do
nothing. -/
def DynamicArray.reserve (a : DynamicArray) (new_capacity : Nat) : DynamicArray :=
  if new_capacity > a.capacity then
    { elems := a.elems, capacity := new_capacity, buffer := allocate new_capacity }
  else
    a

/-- DynamicArray.resize (dynamicArray.h:541): when count < m_size, destroy
the tail and shrink m_size; when m_size < count and count fits the capacity,
fill the new tail slots with value; otherwise (count > m_capacity, or
count = m_size) allocate a buffer of count slots and fill ALL count slots
with value, never copying the old elements, then set m_size = m_capacity
= count. -/
def DynamicArray.resize (a : DynamicArray) (count : Nat) (value : Int) :
    DynamicArray :=
  if count < a.size then
    { a with elems := a.elems.take count }
  else if count > a.size ∧ count ≤ a.capacity then
    { a with elems := a.elems ++ List.replicate (count - a.size) value }
  else
    { elems := List.replicate count value, capacity := count,
      buffer := allocate count }

/-- DynamicArray move constructor (dynamicArray.h:92): returns (destination,
moved-from source). The destination takes the fields and the buffer; the
source is reset to m_size = 0, m_capacity = 0 and a null buffer. -/
def DynamicArray.move_construct (other : DynamicArray) :
    DynamicArray × DynamicArray :=
  ({ elems := other.elems, capacity := other.capacity, buffer := other.buffer },
   { elems := [], capacity := 0, buffer := none })

/-- DynamicArray move assignment (dynamicArray.h:137): returns (destination,
moved-from source). The destination takes the fields and the buffer; on the
source only m_size is reset to 0: m_capacity keeps its old value while the
moved unique_ptr leaves a null buffer. -/
def DynamicArray.move_assign (dst other : DynamicArray) :
    DynamicArray × DynamicArray :=
  ((fun _ => ({ elems := other.elems, capacity := other.capacity,
                buffer := other.buffer } : DynamicArray)) dst,
   { elems := [], capacity := other.capacity, buffer := none })

/-- DynamicArray.front (dynamicArray.h:267): throws on an empty array,
otherwise reads the element in slot 0. -/
def DynamicArray.front (a : DynamicArray) : Except String Int :=
  if a.size = 0 then .error ("Array is empty") else .ok (a.elems.getD 0 0)

/-- DynamicArray.back (dynamicArray.h:283): throws on an empty array,
otherwise reads the element in slot m_size - 1. -/
def DynamicArray.back (a : DynamicArray) : Except String Int :=
  if a.size = 0 then .error ("Array is empty") else .ok (a.elems.getD (a.size - 1) 0)

/-- Strong ordering of two Int values, the built-in operator of C++. -/
def threeWay (x y : Int) : Ordering :=
  if x < y then .lt else if x = y then .eq else .gt

/-- Value pair at the first position where the two ranges differ, as
computed by std::mismatch over the first range (used with equal sizes). -/
def firstMismatch : List Int → List Int → Option (Int × Int)
  | [], _ => none
  | _, [] => none
  | x :: xs, y :: ys => if x ≠ y then some (x, y) else firstMismatch xs ys

/-- Ordering decided by the first mismatching pair, equal when there is
none: the tail of the spaceship operator after the size checks. -/
def mismatchOrd (xs ys : List Int) : Ordering :=
  match firstMismatch xs ys with
  | none => .eq
  | some (x, y) => threeWay x y

/-- DynamicArray spaceship operator (dynamicArray.h:154): a smaller size
compares less and a larger size greater before any element is inspected;
for equal sizes the first mismatching elements decide, equal when there is
no mismatch. -/
def DynamicArray.spaceship (a rhs : DynamicArray) : Ordering :=
  if a.size < rhs.size then .lt
  else if rhs.size < a.size then .gt
  else mismatchOrd a.elems rhs.elems

/-- Lexicographic ordering over the element sequences, written from the
words of the spec (section 4.1, Equality / ordering): the result is decided
by the elements at the first position where the sequences differ, and the
sizes decide only when one sequence is a proper prefix of the other. Used
to compare the source operator against the claimed policy. -/
def lexCompare : List Int → List Int → Ordering
  | [], [] => .eq
  | [], _ :: _ => .lt
  | _ :: _, [] => .gt
  | x :: xs, y :: ys =>
    if x < y then .lt else if y < x then .gt else lexCompare xs ys

/-- Narrowing conversion of a size_t value to 32-bit unsigned, as performed
by static_cast inside Darray (darray.h:140, 236). -/
def u32cast (n : Nat) : Nat :=
  n % 2 ^ 32

/-- Observable state of a Darray of Int (darray.h). Buffers come from
std::make_unique, which is non-null even for zero elements; only the
default constructor and a moved-from state hold a null buffer. -/
structure Darray where
  elems : List Int
  capacity : Nat
  buffer : Option Nat
  deriving DecidableEq

/-- Number of live elements of a Darray, the m_size field. -/
def Darray.size (a : Darray) : Nat :=
  a.elems.length

/-- Size constructor of Darray (darray.h:26): make_unique value-initializes
the Int elements to 0, and m_size = m_capacity = size. -/
def Darray.mkSized (n : Nat) : Darray :=
  { elems := List.replicate n 0, capacity := n, buffer := some n }

/-- Darray.push_back (darray.h:138): when m_size + 1 exceeds m_capacity, the
new capacity is std::max(1u, static_cast of (m_capacity * 2) to unsigned),
i.e. the doubling is truncated to 32 bits before the max; a fresh buffer of
that many slots is filled with the old elements. The value is then stored
in slot m_size and m_size incremented. -/
def Darray.push_back (a : Darray) (value : Int) : Darray :=
  if a.size + 1 > a.capacity then
    let new_capacity := max 1 (u32cast (a.capacity * 2))
    { elems := a.elems ++ [value], capacity := new_capacity,
      buffer := some new_capacity }
  else
    { a with elems := a.elems ++ [value] }

/-- Darray.insert (darray.h:230): throws when index exceeds m_size. When
m_size + 1 exceeds m_capacity it grows exactly like push_back and builds
the spliced sequence in the new buffer; otherwise it still allocates a
fresh buffer, of m_size + 1 slots, builds the spliced sequence there and
leaves m_capacity unchanged. m_size increases by one in both branches. -/
def Darray.insert (a : Darray) (index : Nat) (value : Int) :
    Except String Darray :=
  if index > a.size then
    .error ("Index out of range")
  else if a.size + 1 > a.capacity then
    let new_capacity := max 1 (u32cast (a.capacity * 2))
    .ok { elems := a.elems.take index ++ value :: a.elems.drop index,
          capacity := new_capacity, buffer := some new_capacity }
  else
    .ok { elems := a.elems.take index ++ value :: a.elems.drop index,
          capacity := a.capacity, buffer := some (a.size + 1) }

/-- Darray.reserve (darray.h:274): when new_capacity exceeds m_capacity,
allocate a fresh buffer of exactly new_capacity slots, copy the elements
and set m_capacity to new_capacity; otherwise do nothing. -/
def Darray.reserve (a : Darray) (new_capacity : Nat) : Darray :=
  if new_capacity > a.capacity then
    { elems := a.elems, capacity := new_capacity, buffer := some new_capacity }
  else
    a

/-- Darray move assignment (darray.h:78): returns (destination, moved-from
source). Like the DynamicArray version, only m_size of the source is reset
to 0; m_capacity keeps its old value and the buffer becomes null. -/
def Darray.move_assign (dst other : Darray) : Darray × Darray :=
  ((fun _ => ({ elems := other.elems, capacity := other.capacity,
                buffer := other.buffer } : Darray)) dst,
   { elems := [], capacity := other.capacity, buffer := none })

/-! Helper lemmas shared by the claim theorems. -/

/-- Capacity computed by Darray.push_back from a full array of 2 to the 31
elements: the 32-bit narrowing makes the doubled capacity 0, and the max
floor turns it into 1. -/
theorem darray_push_back_capacity_2pow31 (l : List Int) (hl : l.length = 2 ^ 31) :
    (Darray.push_back { elems := l, capacity := 2 ^ 31, buffer := some (2 ^ 31) } 0).capacity
      = 1 := by
  rw [Darray.push_back]
  rw [if_pos (by simp [Darray.size, hl])]
  show max 1 (u32cast (2 ^ 31 * 2)) = 1
  rw [u32cast]
  norm_num

/-- Length of the sequence produced by splicing one element in at position
i, for i within bounds. -/
theorem length_splice (l : List Int) (i : Nat) (x : Int) (h : i ≤ l.length) :
    (l.take i ++ x :: l.drop i).length = l.length + 1 := by
  simp [List.length_take, List.length_drop]
  omega

/-- Length of the sequence produced by removing the element at position i,
for i within bounds. -/
theorem length_remove (l : List Int) (i : Nat) (h : i < l.length) :
    (l.take i ++ l.drop (i + 1)).length = l.length - 1 := by
  simp [List.length_take, List.length_drop]
  omega

/-- On equal-length lists the first-mismatch ordering agrees with the
lexicographic ordering. -/
theorem mismatchOrd_eq_lexCompare :
    ∀ (xs ys : List Int), xs.length = ys.length → mismatchOrd xs ys = lexCompare xs ys
  | [], [], _ => rfl
  | [], _ :: _, h => by simp at h
  | _ :: _, [], h => by simp at h
  | x :: xs, y :: ys, h => by
    by_cases hxy : x = y
    · subst hxy
      have ih := mismatchOrd_eq_lexCompare xs ys (by simpa using h)
      simpa [mismatchOrd, firstMismatch, lexCompare, lt_irrefl] using ih
    · simp only [mismatchOrd, firstMismatch, if_pos hxy, lexCompare, threeWay]
      split_ifs <;> first | rfl | (exfalso; omega)

/-- Element in the last slot, as indexed by the source (slot length - 1),
agrees with the optional last element of the list. -/
theorem getD_last :
    ∀ (l : List Int) (v : Int), l.getLast? = some v → l.getD (l.length - 1) 0 = v
  | [], v => by simp
  | [x], v => by simp
  | x :: y :: t, v => fun hv => by
    have ih := getD_last (y :: t) v (by rwa [List.getLast?_cons_cons] at hv)
    simpa using ih

/-! Claim theorems. -/

/-- C1: evaluation at a failing input. The claim states that push_back on a
full array always grows the capacity to max(1, 2 * old capacity). For
DynamicArray this matches the source, but Darray.push_back computes the
doubling through a 32-bit narrowing cast: starting from the state produced
by the Darray size constructor with 2 to the 31 elements (size = capacity
= 2 to the 31), one push_back sets the capacity field to 1, not to
max(1, 2 * 2 to the 31) = 2 to the 32, and leaves 2 to the 31 + 1 elements
backed by a 1-slot buffer. -/
theorem darray_push_back_truncates_capacity :
    (Darray.push_back (Darray.mkSized (2 ^ 31)) 0).capacity = 1
    ∧ max 1 (2 ^ 31 * 2) = 2 ^ 32 :=
  ⟨darray_push_back_capacity_2pow31 _ (List.length_replicate _ _), by norm_num⟩

/-- C2: evaluation at a failing input. The claim states that a
single-element insert with size < capacity leaves the capacity unchanged.
The state below (elements [1, 2, 3], capacity 4) is reached by three
push_back calls from empty; it has size 3 < capacity 4, yet emplace at
position 1 returns capacity 8, because the source multiplies m_capacity by
2 unconditionally after the copy (dynamicArray.h:477). The buffer itself
was allocated with only 4 slots. -/
theorem emplace_doubles_capacity_without_growth :
    (((DynamicArray.mkEmpty.push_back 1).push_back 2).push_back 3)
      = { elems := [1, 2, 3], capacity := 4, buffer := some 4 }
    ∧ ({ elems := [1, 2, 3], capacity := 4, buffer := some 4 } : DynamicArray).size < 4
    ∧ DynamicArray.emplace { elems := [1, 2, 3], capacity := 4, buffer := some 4 } 1 9
      = .ok { elems := [1, 9, 2, 3], capacity := 8, buffer := some 4 } :=
  ⟨rfl, by decide, rfl⟩

/-- C3: evaluation at a failing input. The claim (and the test case named
Test resize function with two parameters in darrayTest.cpp) states that
resize(7, 42) on [1, 2, 3, 4, 5] keeps the first five elements. The source
branch for count > capacity fills the whole new buffer with value and never
copies the old elements, so every slot becomes 42. -/
theorem resize_discards_existing_elements :
    DynamicArray.resize (DynamicArray.ofList [1, 2, 3, 4, 5]) 7 42
      = { elems := [42, 42, 42, 42, 42, 42, 42], capacity := 7, buffer := some 7 }
    ∧ (DynamicArray.resize (DynamicArray.ofList [1, 2, 3, 4, 5]) 7 42).elems.take 5
      ≠ [1, 2, 3, 4, 5] :=
  ⟨rfl, by decide⟩

/-- C4: evaluation at two failing inputs. The claim states the invariants
0 ≤ size ≤ capacity and (buffer null iff capacity 0) after every operation.
First part: the count-insert on an empty array grows only to
max(1, 2 * capacity) = 1 even though two elements are inserted, leaving
size 2 > capacity 1. Second part: push_back then pop_back reallocates with
allocate(0), which returns the null pointer, while m_capacity stays 1, so
the buffer is null with capacity not 0. -/
theorem insert_count_and_pop_back_break_invariants :
    (DynamicArray.insert_count DynamicArray.mkEmpty 0 2 7
      = .ok { elems := [7, 7], capacity := 1, buffer := some 1 })
    ∧ (1 : Nat) < ([7, 7] : List Int).length
    ∧ (DynamicArray.pop_back (DynamicArray.push_back DynamicArray.mkEmpty 1)
      = .ok { elems := [], capacity := 1, buffer := none })
    ∧ (1 : Nat) ≠ 0 :=
  ⟨rfl, by decide, rfl, by decide⟩

/-- C6: evaluation at a failing input. The claim states that move
construction and move assignment leave the moved-from array with size 0,
capacity 0 and a null buffer. Move construction does (third conjunct), but
move assignment resets only m_size: the moved-from array keeps capacity 5
with a null buffer (first conjunct), and Darray move assignment has the
same slip (fourth conjunct). The destination does receive the element
sequence (second conjunct). -/
theorem move_assign_keeps_moved_from_capacity :
    (DynamicArray.move_assign DynamicArray.mkEmpty (DynamicArray.ofList [1, 2, 3, 4, 5])).2
      = { elems := [], capacity := 5, buffer := none }
    ∧ (DynamicArray.move_assign DynamicArray.mkEmpty (DynamicArray.ofList [1, 2, 3, 4, 5])).1.elems
      = [1, 2, 3, 4, 5]
    ∧ (DynamicArray.move_construct (DynamicArray.ofList [1, 2, 3, 4, 5])).2
      = { elems := [], capacity := 0, buffer := none }
    ∧ (Darray.move_assign { elems := [], capacity := 0, buffer := none }
        { elems := [1, 2], capacity := 2, buffer := some 2 }).2.capacity = 2 :=
  ⟨rfl, rfl, rfl, rfl⟩

/-- C5: insert splices the value in at the given position. For both
DynamicArray (insert forwards to emplace) and Darray, inserting x at
position i of a state with i ≤ size succeeds and yields the original
sequence with x spliced in at position i (elements before i unchanged and
in order, elements at positions at least i shifted up by one, order
preserved), and the size grows by one. -/
theorem insert_splices_at_position (a : DynamicArray) (d : Darray) (i : Nat) (x : Int)
    (ha : i ≤ a.size) (hd : i ≤ d.size) :
    (a.insert i x).map DynamicArray.elems
      = .ok (a.elems.take i ++ x :: a.elems.drop i)
    ∧ (a.insert i x).map DynamicArray.size = .ok (a.size + 1)
    ∧ (d.insert i x).map Darray.elems
      = .ok (d.elems.take i ++ x :: d.elems.drop i)
    ∧ (d.insert i x).map Darray.size = .ok (d.size + 1) := by
  have hna : ¬ a.elems.length < i := Nat.not_lt.mpr ha
  have hnd : ¬ d.elems.length < i := Nat.not_lt.mpr hd
  refine ⟨?_, ?_, ?_, ?_⟩
  · simp [DynamicArray.insert, DynamicArray.emplace, hna, Except.map, DynamicArray.size]
  · simp [DynamicArray.insert, DynamicArray.emplace, hna, Except.map, DynamicArray.size]
    omega
  · simp [Darray.insert, hnd, Except.map, Darray.size]
    split_ifs <;> simp
  · simp [Darray.insert, hnd, Except.map, Darray.size]
    split_ifs <;> simp <;> omega

/-- C5 witness: the spliced insert evaluated at position 2 of [1, 2, 4]. -/
theorem insert_splices_at_position_witness :
    (DynamicArray.insert (DynamicArray.ofList [1, 2, 4]) 2 3).map DynamicArray.elems
      = .ok [1, 2, 3, 4]
    ∧ (Darray.insert { elems := [1, 2, 4], capacity := 3, buffer := some 3 } 2 3).map Darray.elems
      = .ok [1, 2, 3, 4] :=
  ⟨(insert_splices_at_position (DynamicArray.ofList [1, 2, 4])
      { elems := [1, 2, 4], capacity := 3, buffer := some 3 } 2 3
      (by decide) (by decide)).1,
   (insert_splices_at_position (DynamicArray.ofList [1, 2, 4])
      { elems := [1, 2, 4], capacity := 3, buffer := some 3 } 2 3
      (by decide) (by decide)).2.2.1⟩

/-- C7: erase removes the element at a valid position, keeps the remaining
order, and shrinks the reallocated capacity to exactly the new size when
the decremented size drops below m_capacity / 2, leaving capacity and
buffer untouched otherwise. -/
theorem erase_removes_and_conditionally_shrinks (a : DynamicArray) (i : Nat)
    (h : i < a.size) :
    ∃ t, a.erase i = .ok t
      ∧ t.elems = a.elems.take i ++ a.elems.drop (i + 1)
      ∧ t.size = a.size - 1
      ∧ (a.size - 1 < a.capacity / 2 → t.capacity = t.size)
      ∧ (a.capacity / 2 ≤ a.size - 1 → t.capacity = a.capacity ∧ t.buffer = a.buffer) := by
  have hne : ¬ i ≥ a.elems.length := Nat.not_le.mpr h
  have hlen := length_remove a.elems i h
  by_cases hc : a.elems.length - 1 < a.capacity / 2
  · have hcap : a.elems.length - 1 < a.capacity :=
      lt_of_lt_of_le hc (Nat.div_le_self _ _)
    have key : a.erase i
        = .ok { elems := a.elems.take i ++ a.elems.drop (i + 1),
                capacity := a.elems.length - 1,
                buffer := allocate (a.elems.length - 1) } := by
      simp only [DynamicArray.erase, DynamicArray.shrink_to_fit, DynamicArray.size,
        if_neg hne]
      simp only [hlen]
      rw [if_pos hc, if_pos hcap]
    exact ⟨_, key, rfl, hlen, fun _ => hlen.symm,
      fun hle => absurd hc (Nat.not_lt.mpr hle)⟩
  · have key : a.erase i
        = .ok { elems := a.elems.take i ++ a.elems.drop (i + 1),
                capacity := a.capacity,
                buffer := a.buffer } := by
      simp only [DynamicArray.erase, DynamicArray.size, if_neg hne]
      simp only [hlen]
      rw [if_neg hc]
    exact ⟨_, key, rfl, hlen, fun hlt => absurd hlt hc, fun _ => ⟨rfl, rfl⟩⟩

/-- C7 witness: erasing position 0 of [1, 2, 3] at capacity 8 takes the
shrink branch (2 < 4) and lands at capacity 2; erasing position 1 of
[1, 2, 3, 4] at capacity 4 keeps capacity 4. -/
theorem erase_removes_and_conditionally_shrinks_witness :
    ((0 : Nat) < DynamicArray.size { elems := [1, 2, 3], capacity := 8, buffer := some 8 }
    ∧ ∃ t, DynamicArray.erase { elems := [1, 2, 3], capacity := 8, buffer := some 8 } 0 = .ok t
      ∧ t.elems = [2, 3]
      ∧ t.size = 2
      ∧ (2 < 4 → t.capacity = t.size)
      ∧ ((4 : Nat) ≤ 2 → t.capacity = 8 ∧ t.buffer = some 8)) :=
  ⟨by decide, erase_removes_and_conditionally_shrinks _ 0 (by decide)⟩

/-- C8: reserve with an argument at most the capacity changes nothing at
all; with a larger argument it sets the capacity field to exactly that
argument and keeps the elements; in particular the capacity never
decreases. Holds for DynamicArray and for Darray. -/
theorem reserve_exact_and_monotone (a : DynamicArray) (d : Darray) (k : Nat) :
    (k ≤ a.capacity → a.reserve k = a)
    ∧ (a.capacity < k → (a.reserve k).capacity = k ∧ (a.reserve k).elems = a.elems)
    ∧ a.capacity ≤ (a.reserve k).capacity
    ∧ (k ≤ d.capacity → d.reserve k = d)
    ∧ (d.capacity < k → (d.reserve k).capacity = k ∧ (d.reserve k).elems = d.elems)
    ∧ d.capacity ≤ (d.reserve k).capacity := by
  refine ⟨?_, ?_, ?_, ?_, ?_, ?_⟩
  · intro hk
    rw [DynamicArray.reserve, if_neg (Nat.not_lt.mpr hk)]
  · intro hk
    rw [DynamicArray.reserve, if_pos hk]
    exact ⟨rfl, rfl⟩
  · rw [DynamicArray.reserve]
    split_ifs with hk
    · exact le_of_lt hk
    · exact le_refl _
  · intro hk
    rw [Darray.reserve, if_neg (Nat.not_lt.mpr hk)]
  · intro hk
    rw [Darray.reserve, if_pos hk]
    exact ⟨rfl, rfl⟩
  · rw [Darray.reserve]
    split_ifs with hk
    · exact le_of_lt hk
    · exact le_refl _

/-- C8 witness: reserve 2 on a capacity-2 array is the identity, reserve 10
grows exactly to 10, and the Darray variant grows exactly to 6. -/
theorem reserve_exact_and_monotone_witness :
    DynamicArray.reserve (DynamicArray.ofList [1, 2]) 2 = DynamicArray.ofList [1, 2]
    ∧ (DynamicArray.reserve (DynamicArray.ofList [1, 2]) 10).capacity = 10
    ∧ (Darray.reserve { elems := [7], capacity := 1, buffer := some 1 } 6).capacity = 6 :=
  ⟨(reserve_exact_and_monotone (DynamicArray.ofList [1, 2])
      { elems := [7], capacity := 1, buffer := some 1 } 2).1 (by decide),
   ((reserve_exact_and_monotone (DynamicArray.ofList [1, 2])
      { elems := [7], capacity := 1, buffer := some 1 } 10).2.1 (by decide)).1,
   ((reserve_exact_and_monotone DynamicArray.mkEmpty
      { elems := [7], capacity := 1, buffer := some 1 } 6).2.2.2.2.1 (by decide)).1⟩

/-- C9 counterexample: the source spaceship operator is not lexicographic
over the elements. On [2] versus [1, 1] the source compares the sizes first
and returns less, while the lexicographic ordering of the claim compares
2 with 1 and returns greater. -/
theorem spaceship_disagrees_with_lexicographic :
    DynamicArray.spaceship (DynamicArray.ofList [2]) (DynamicArray.ofList [1, 1]) = .lt
    ∧ lexCompare [2] [1, 1] = .gt
    ∧ Ordering.lt ≠ Ordering.gt :=
  ⟨rfl, rfl, by decide⟩

/-- C9 amended: the spaceship operator is size-first. A smaller size
compares less and a larger size greater regardless of the element values;
only for equal sizes is the result lexicographic, decided by the elements
at the first position where the arrays differ (equal when there is none). -/
theorem spaceship_is_size_first (a b : DynamicArray) :
    (a.size < b.size → a.spaceship b = .lt)
    ∧ (b.size < a.size → a.spaceship b = .gt)
    ∧ (a.size = b.size → a.spaceship b = lexCompare a.elems b.elems) := by
  refine ⟨?_, ?_, ?_⟩
  · intro hlt
    rw [DynamicArray.spaceship, if_pos hlt]
  · intro hgt
    rw [DynamicArray.spaceship, if_neg (by omega), if_pos hgt]
  · intro heq
    rw [DynamicArray.spaceship, if_neg (by omega), if_neg (by omega)]
    exact mismatchOrd_eq_lexCompare _ _ heq

/-- C9 witness: for the equal-size pair [1, 2] and [1, 3] the spaceship
operator agrees with the lexicographic ordering, and for the size-1 versus
size-2 pair it returns less. -/
theorem spaceship_is_size_first_witness :
    DynamicArray.spaceship (DynamicArray.ofList [1, 2]) (DynamicArray.ofList [1, 3])
      = lexCompare [1, 2] [1, 3]
    ∧ DynamicArray.spaceship (DynamicArray.ofList [5]) (DynamicArray.ofList [1, 1]) = .lt :=
  ⟨(spaceship_is_size_first (DynamicArray.ofList [1, 2]) (DynamicArray.ofList [1, 3])).2.2 rfl,
   (spaceship_is_size_first (DynamicArray.ofList [5]) (DynamicArray.ofList [1, 1])).1 (by decide)⟩

/-- C10: front and back fail with the out-of-range error exactly on the
empty array; on a non-empty array front returns the element in slot 0 and
back the element in slot size - 1. Both are pure reads: the model types
them as functions of the state that return only the value. -/
theorem front_back_error_iff_empty (a : DynamicArray) :
    ((∃ msg, a.front = .error msg) ↔ a.size = 0)
    ∧ ((∃ msg, a.back = .error msg) ↔ a.size = 0)
    ∧ (∀ v, a.elems.head? = some v → a.front = .ok v)
    ∧ (∀ v, a.elems.getLast? = some v → a.back = .ok v) := by
  refine ⟨?_, ?_, ?_, ?_⟩
  · by_cases hz : a.size = 0 <;> simp [DynamicArray.front, hz]
  · by_cases hz : a.size = 0 <;> simp [DynamicArray.back, hz]
  · intro v hv
    rcases a with ⟨elems, cap, buf⟩
    cases elems with
    | nil => simp at hv
    | cons h t =>
      simp at hv
      simp [DynamicArray.front, DynamicArray.size, hv]
  · intro v hv
    have hne : a.elems ≠ [] := by
      intro hnil
      rw [hnil] at hv
      simp at hv
    have hz : ¬ a.size = 0 := by
      simp only [DynamicArray.size, List.length_eq_zero]
      exact hne
    rw [DynamicArray.back, if_neg hz]
    exact congrArg Except.ok (getD_last a.elems v hv)

/-- C10 witness: front and back of [4, 5, 6], and the error on the empty
array. -/
theorem front_back_error_iff_empty_witness :
    DynamicArray.front (DynamicArray.ofList [4, 5, 6]) = .ok 4
    ∧ DynamicArray.back (DynamicArray.ofList [4, 5, 6]) = .ok 6
    ∧ (∃ msg, DynamicArray.front DynamicArray.mkEmpty = .error msg) :=
  ⟨(front_back_error_iff_empty (DynamicArray.ofList [4, 5, 6])).2.2.1 4 rfl,
   (front_back_error_iff_empty (DynamicArray.ofList [4, 5, 6])).2.2.2 6 rfl,
   (front_back_error_iff_empty DynamicArray.mkEmpty).1.mpr rfl⟩
